import Mathlib

/-!
Shallow embedding of the researchq retrieval core:
  * `src/src/vectorstore/vectorstore.py` — `FAISSVectorStore._get_query_embedding`,
    `FAISSVectorStore._fetch_chunks_by_ids`, `FAISSVectorStore.search`;
  * `src/embedding_server/main.py` — the `EmbedRequest` pydantic schema of the
    embedding server's `POST /embed` endpoint;
  * `src/faiss_helper/detect_missing_faiss_ids.py` — the reconciliation job
    (`detect_missing_faiss_ids`, `get_vectors_for_ids`,
    `insert_missing_ids_to_faiss_db`, `main`).

Floats are modelled as rationals (`ℚ`); the FAISS library itself is external
C++ code, so its operations (`IndexIDMap.id_map`, `add_with_ids`,
`read_index`/`write_index`) are modelled by the contract the spec states for
them in §4.1: an ID-mapped index is its dimension together with the ordered
list of `(id, vector)` entries, `add_with_ids` appends the given id/vector
pairs, and persistence writes the whole artifact to a path.
-/

/-! ### Metadata store rows (PostgreSQL)

A row of the join query issued by `_fetch_chunks_by_ids`
(`SELECT ec.id, ec.chunk_text, ... FROM embedding_chunks ec LEFT JOIN research_papers rp ...`).
Nullable SQL columns are `Option`s. -/

structure ChunkRow where
  id : Int
  chunk_text : String
  chunk_index : Int
  page_number : Option Int
  document_id : Int
  paper_title : Option String
  authors : Option String
  doi : Option String
  source : Option String
deriving Repr, DecidableEq

/-- Dictionary value built per row in `_fetch_chunks_by_ids`
(`chunks_dict[row[0]] = {...}`), with the `or "Unknown"` / `or ""` defaults
applied to the nullable columns. -/
structure ChunkData where
  id : Int
  chunk_text : String
  chunk_index : Int
  page_number : Option Int
  document_id : Int
  paper_title : String
  authors : String
  doi : String
  source : String
deriving Repr, DecidableEq

/-- Translation of one row into its `chunks_dict` entry. -/
def rowToChunkData (r : ChunkRow) : ChunkData :=
  { id := r.id
    chunk_text := r.chunk_text
    chunk_index := r.chunk_index
    page_number := r.page_number
    document_id := r.document_id
    paper_title := r.paper_title.getD "Unknown"
    authors := r.authors.getD "Unknown"
    doi := r.doi.getD ""
    source := r.source.getD "" }

/-- Lookup in `chunks_dict`: the Python dict is filled by iterating the rows
in order, so for a duplicated id the LAST row wins — hence `find?` over the
reversed row list. -/
def dictLookup (rows : List ChunkRow) (i : Int) : Option ChunkData :=
  (rows.reverse.find? (fun r => r.id == i)).map rowToChunkData

/-- Loop `for chunk_id in chunk_ids: if chunk_id in chunks_dict: append else
logger.warning(...)` of `_fetch_chunks_by_ids`.  First component: the chunks
kept, in the order of `chunk_ids`; second component: the ids for which a
"Chunk ID ... not found in database" warning is logged. -/
def collectChunks : List Int → (Int → Option ChunkData) → List ChunkData × List Int
  | [], _ => ([], [])
  | i :: rest, dict =>
    let r := collectChunks rest dict
    match dict i with
    | some c => (c :: r.1, r.2)
    | none => (r.1, i :: r.2)

/-- Model of `FAISSVectorStore._fetch_chunks_by_ids`: given the FAISS id list
and the rows the database returned (in whatever order), produce the ordered
chunk list and the list of warned-about missing ids.  The early
`if not chunk_ids: return []` guard is kept. -/
def fetchChunksByIds (chunk_ids : List Int) (rows : List ChunkRow) :
    List ChunkData × List Int :=
  if chunk_ids.isEmpty then ([], [])
  else collectChunks chunk_ids (dictLookup rows)

/-! ### Documents returned by `FAISSVectorStore.search` -/

/-- A LangChain `Document` as built by `search`: `page_content` plus the
flattened metadata dict. -/
structure Document where
  page_content : String
  chunk_id : Int
  document_id : Int
  chunk_index : Int
  page_number : Option Int
  paper_title : String
  authors : String
  doi : String
  source : String
  similarity_score : ℚ
deriving Repr, DecidableEq

/-- Document construction for one `chunk_data` entry at enumeration index `i`
(`similarity_score = float(scores[i]) if i < len(scores) else 0.0`). -/
def mkDocument (cd : ChunkData) (score : ℚ) : Document :=
  { page_content := cd.chunk_text
    chunk_id := cd.id
    document_id := cd.document_id
    chunk_index := cd.chunk_index
    page_number := cd.page_number
    paper_title := cd.paper_title
    authors := cd.authors
    doi := cd.doi
    source := cd.source
    similarity_score := score }

/-- Model of the document-building tail of `FAISSVectorStore.search`.  The
FAISS call `scores, ids = self.index.search(query_vec, k)` is external, so the
flattened arrays `scores = scores[0]` and `ids = ids[0].astype(int).tolist()`
are taken as inputs, together with the database rows; the
diagnostic printing and vector-reconstruction loop have no effect on the
returned value and are omitted. -/
def searchDocuments (scores : List ℚ) (ids : List Int) (rows : List ChunkRow) :
    List Document :=
  ((fetchChunksByIds ids rows).1.enum).map fun p => mkDocument p.2 (scores.getD p.1 0)

/-! ### Embedding server request schema vs. client payload

`src/embedding_server/main.py` declares the pydantic model
`EmbedRequest { texts: List[str], is_query: Optional[bool] = False }` for
`POST /embed`; `_get_query_embedding` in the vector store builds the JSON
body it posts to that endpoint.  A small JSON value type makes both sides
comparable. -/

inductive Json where
  | str (s : String)
  | num (q : ℚ)
  | bool (b : Bool)
  | arr (elems : List Json)
  | obj (fields : List (String × Json))
deriving Repr

/-- First binding of a key in a JSON object (dict keys are unique, first hit
suffices). -/
def lookupField : List (String × Json) → String → Option Json
  | [], _ => none
  | (k, v) :: rest, key => if k == key then some v else lookupField rest key

/-- Field access on a JSON value; `none` on non-objects or absent keys. -/
def Json.getField : Json → String → Option Json
  | .obj fields, key => lookupField fields key
  | _, _ => none

/-- A JSON value read as a string. -/
def Json.asString : Json → Option String
  | .str s => some s
  | _ => none

/-- A JSON value read as an array of strings, as pydantic validates
`texts: List[str]`. -/
def Json.asStringList : Json → Option (List String)
  | .arr elems => elems.mapM Json.asString
  | _ => none

/-- The validated form of the server's `EmbedRequest` pydantic model:
required `texts : List[str]`, optional `is_query : bool` defaulting to
`False`. -/
structure EmbedRequest where
  texts : List String
  is_query : Bool
deriving Repr, DecidableEq

/-- Pydantic validation of a request body against `EmbedRequest`: a missing
`texts` key is a validation error (the field is required and has no
default); a present `texts` must be a list of strings; `is_query` defaults
to `False` when absent. -/
def parseEmbedRequest (j : Json) : Except String EmbedRequest :=
  match j.getField "texts" with
  | none => .error "field required: texts"
  | some t =>
    match t.asStringList with
    | none => .error "texts: value is not a valid list of strings"
    | some ts =>
      match j.getField "is_query" with
      | none => .ok ⟨ts, false⟩
      | some (.bool b) => .ok ⟨ts, b⟩
      | some _ => .error "is_query: value is not a valid boolean"

/-- The JSON body `FAISSVectorStore._get_query_embedding` posts to
`{embedding_server_url}/embed`:
`{"requests": [{"content": {"parts": [{"text": query}]}}], "is_query": True}`
(vectorstore.py lines 117–120), verbatim. -/
def clientEmbedPayload (query : String) : Json :=
  .obj [("requests",
          .arr [.obj [("content", .obj [("parts",
                  .arr [.obj [("text", .str query)]])])]]),
        ("is_query", .bool true)]

/-! ### Client-side handling of the embedding response -/

/-- Squared L2 norm over the rational model of float vectors. -/
def l2normSq (v : List ℚ) : ℚ := (v.map fun x => x * x).sum

/-- Model of the external FAISS call `faiss.normalize_L2(vec)`: every entry
is divided by the vector's L2 norm.  The float square root is idealized as
the real square root, so the scaled entries live in `ℝ`. -/
noncomputable def normalizeL2 (v : List ℚ) : List ℝ :=
  v.map fun x => (x : ℝ) / Real.sqrt ((l2normSq v : ℚ) : ℝ)

/-- Model of `FAISSVectorStore._get_query_embedding` after the HTTP round
trip: the argument is the `responses` array of the parsed JSON reply
(`none` when the key is absent), each entry being its `embedding.values`
float list.  The code raises `ValueError("No embedding in response")` when
`responses` is absent or empty; otherwise it takes
`responses[0].embedding.values`, builds the numpy row vector, applies
`faiss.normalize_L2` to it and returns it.  The received vector's norm is
never inspected. -/
noncomputable def getQueryEmbedding (responses : Option (List (List ℚ))) :
    Except String (List ℝ) :=
  match responses with
  | none => .error "No embedding in response"
  | some [] => .error "No embedding in response"
  | some (v :: _) => .ok (normalizeL2 v)

/-! ### Reconciliation job (`faiss_helper/detect_missing_faiss_ids.py`)

The FAISS `IndexIDMap` is modelled per the §4.1 contract: a dimension `d`
plus the ordered `(id, vector)` entries; `id_map` is the id column and
`add_with_ids` appends the given pairs.  Persistence effects are recorded as
an explicit operation trace. -/

structure FaissIndex where
  d : ℕ
  entries : List (Int × List ℚ)
deriving Repr, DecidableEq

/-- The contents of `faiss.vector_to_array(index.id_map)`. -/
def FaissIndex.idList (ix : FaissIndex) : List Int := ix.entries.map (·.1)

/-- The §4.1 contract of `IndexIDMap.add_with_ids`: the id/vector pairs are
appended to the index. -/
def FaissIndex.addWithIds (ix : FaissIndex) (vectors : List (List ℚ))
    (ids : List Int) : FaissIndex :=
  { ix with entries := ix.entries ++ ids.zip vectors }

/-- Filesystem mutations a run can perform on index artifacts. -/
inductive FsOp where
  | write (path : String) (artifact : FaissIndex)
  | rename (src dst : String)
deriving Repr, DecidableEq

/-- The metadata store as the job sees it: the id set of
`embedding_chunks` (`SELECT id FROM embedding_chunks`) and the rows of
`embedding_vectors` as `(embedding_chunk_id, decoded embedding)` pairs
(`parse_pgvector` decoding of the raw column is abstracted into the row). -/
structure DbState where
  chunkIds : Finset Int
  vectorRows : List (Int × List ℚ)

/-- Model of `detect_missing_faiss_ids` (the index was loaded from the
artifact path): `missing_ids = db_ids - faiss_ids`; only this direction is
computed. -/
def detectMissingFaissIds (ix : FaissIndex) (dbIds : Finset Int) : Finset Int :=
  dbIds \ ix.idList.toFinset

/-- Model of `get_vectors_for_ids`: rows of `embedding_vectors` whose
`embedding_chunk_id` is among the missing ids
(`WHERE embedding_chunk_id = ANY(%s)`). -/
def getVectorsForIds (missing : Finset Int) (db : DbState) :
    List (Int × List ℚ) :=
  db.vectorRows.filter (fun r => decide (r.1 ∈ missing))

/-- The selection/validation loop of `insert_missing_ids_to_faiss_db`:
for each `(chunk_id, embedding)` row with `chunk_id in missing_ids`, the
decoded vector is length-checked against `index.d`
(`raise ValueError(...)` on mismatch, modelled as `.error`) and otherwise
appended to the local `vectors`/`ids` lists. -/
def selectBatch (missing : Finset Int) (d : ℕ) :
    List (Int × List ℚ) → Except String (List (List ℚ) × List Int)
  | [] => .ok ([], [])
  | (cid, emb) :: rest =>
    if cid ∈ missing then
      if emb.length ≠ d then .error "Embedding dim mismatch"
      else do
        let tail ← selectBatch missing d rest
        .ok (emb :: tail.1, cid :: tail.2)
    else selectBatch missing d rest

/-- Model of `insert_missing_ids_to_faiss_db`.  The function re-reads the
index from the same `faiss_index_path` the detection step used, so the index
is passed in; after the validation loop it calls
`index.add_with_ids(vectors, ids)` and then `faiss.write_index(index,
faiss_index_path)` — a single write to the very path the index was loaded
from.  Returns the updated index, the inserted ids and the filesystem
operations performed; a raised exception (`.error`) performs none. -/
def insertMissingIdsToFaissDb (missing : Finset Int)
    (results : List (Int × List ℚ)) (path : String) (ix : FaissIndex) :
    Except String (FaissIndex × List Int × List FsOp) := do
  let batch ← selectBatch missing ix.d results
  let ix' := ix.addWithIds batch.1 batch.2
  .ok (ix', batch.2, [FsOp.write path ix'])

/-- Model of the job's `main`: detect the missing ids; when the set is
nonempty (`if missing_ids:`), fetch their vectors and insert.  `main`
then evaluates `results[0][0]` for a debug print, which raises `IndexError`
when `results` is empty, so that case is an error. -/
def reconcileMain (db : DbState) (path : String) (ix : FaissIndex) :
    Except String (FaissIndex × List Int × List FsOp) :=
  let missing := detectMissingFaissIds ix db.chunkIds
  if missing = ∅ then .ok (ix, [], [])
  else
    let results := getVectorsForIds missing db
    if results.isEmpty then .error "IndexError: list index out of range"
    else insertMissingIdsToFaissDb missing results path ix

/-! ### Lemmas about the chunk-fetch loop -/

/-- The fetch loop keeps, in id order, exactly the ids with a dictionary hit
and warns about exactly the ids without one. -/
theorem collectChunks_eq (dict : Int → Option ChunkData) (l : List Int) :
    collectChunks l dict =
      (l.filterMap dict, l.filter (fun i => (dict i).isNone)) := by
  induction l with
  | nil => rfl
  | cons i rest ih =>
    simp only [collectChunks, ih]
    cases h : dict i <;>
      simp [List.filterMap_cons, List.filter_cons, h]

/-- The guard `if not chunk_ids: return []` does not change the loop's
outcome, so `_fetch_chunks_by_ids` is the hit/miss split of the id list. -/
theorem fetchChunksByIds_eq (chunk_ids : List Int) (rows : List ChunkRow) :
    fetchChunksByIds chunk_ids rows =
      (chunk_ids.filterMap (dictLookup rows),
        chunk_ids.filter (fun i => ((dictLookup rows i).isNone))) := by
  cases chunk_ids <;> simp [fetchChunksByIds, collectChunks_eq]

/-- A dictionary hit for id `i` is a chunk whose `id` field is `i`. -/
theorem dictLookup_id {rows : List ChunkRow} {i : Int} {c : ChunkData}
    (h : dictLookup rows i = some c) : c.id = i := by
  unfold dictLookup at h
  cases hf : rows.reverse.find? (fun r => r.id == i) with
  | none => rw [hf] at h; cases h
  | some r =>
    rw [hf] at h
    have hp := List.find?_some hf
    have hc : c = rowToChunkData r := by
      simpa using h.symm
    rw [hc]
    simpa [rowToChunkData] using hp

/-- The ids of the fetched chunks are the found-in-store subsequence of the
FAISS id list. -/
theorem filterMap_dictLookup_map_id (rows : List ChunkRow) (l : List Int) :
    (l.filterMap (dictLookup rows)).map (fun c => c.id) =
      l.filter (fun i => ((dictLookup rows i).isSome)) := by
  induction l with
  | nil => rfl
  | cons i rest ih =>
    cases h : dictLookup rows i with
    | none => simp [List.filterMap_cons, List.filter_cons, h, ih]
    | some c => simp [List.filterMap_cons, List.filter_cons, h, ih, dictLookup_id h]

/-- The document list of `search` carries, position by position, the ids of
the fetched chunks: the found-in-store subsequence of the FAISS id list, in
FAISS rank order. -/
theorem searchDocuments_map_chunk_id (scores : List ℚ) (ids : List Int)
    (rows : List ChunkRow) :
    (searchDocuments scores ids rows).map (fun d => d.chunk_id) =
      ids.filter (fun i => ((dictLookup rows i).isSome)) := by
  unfold searchDocuments
  rw [List.map_map]
  have h1 : ((fun d => d.chunk_id) ∘ fun p : ℕ × ChunkData =>
      mkDocument p.2 (scores.getD p.1 0)) = fun p : ℕ × ChunkData => p.2.id := rfl
  rw [h1]
  have h2 : (fun p : ℕ × ChunkData => p.2.id) =
      (fun c : ChunkData => c.id) ∘ Prod.snd := rfl
  rw [h2, ← List.map_map, List.enum_map_snd, fetchChunksByIds_eq]
  exact filterMap_dictLookup_map_id rows ids

/-- With pairwise-distinct row ids, `find?` on the id is order-insensitive:
any two permuted row lists give the same hit. -/
theorem find?_key_eq_of_perm {l l' : List ChunkRow} (hp : l.Perm l')
    (hnd : (l.map (fun r => r.id)).Nodup) (i : Int) :
    l.find? (fun r => r.id == i) = l'.find? (fun r => r.id == i) := by
  rcases h1 : l.find? (fun r => r.id == i) with _ | r
  · rcases h2 : l'.find? (fun r => r.id == i) with _ | r'
    · rw [h1, h2]
    · exfalso
      have hmem : r' ∈ l := hp.symm.subset (List.mem_of_find?_eq_some h2)
      have hq := List.find?_some h2
      exact List.find?_eq_none.mp h1 r' hmem hq
  · rcases h2 : l'.find? (fun r => r.id == i) with _ | r'
    · exfalso
      have hmem : r ∈ l' := hp.subset (List.mem_of_find?_eq_some h1)
      have hq := List.find?_some h1
      exact List.find?_eq_none.mp h2 r hmem hq
    · have hr : r ∈ l := List.mem_of_find?_eq_some h1
      have hr' : r' ∈ l := hp.symm.subset (List.mem_of_find?_eq_some h2)
      have hpr := List.find?_some h1
      have hpr' := List.find?_some h2
      have hid : r.id = r'.id := by
        have e1 : r.id = i := by simpa using hpr
        have e2 : r'.id = i := by simpa using hpr'
        rw [e1, e2]
      have heq := List.inj_on_of_nodup_map hnd hr hr' hid
      rw [h1, h2, heq]

/-- With pairwise-distinct row ids, the `chunks_dict` lookup does not depend
on the order in which the database returned the rows. -/
theorem dictLookup_eq_of_perm {rows rows' : List ChunkRow}
    (hnd : (rows.map (fun r => r.id)).Nodup) (hp : rows'.Perm rows) :
    dictLookup rows' = dictLookup rows := by
  funext i
  unfold dictLookup
  have hperm : rows.reverse.Perm rows'.reverse :=
    ((rows.reverse_perm).trans (hp.symm.trans rows'.reverse_perm.symm))
  have hndrev : (rows.reverse.map (fun r => r.id)).Nodup := by
    rw [List.map_reverse]
    exact List.nodup_reverse.mpr hnd
  rw [find?_key_eq_of_perm hperm hndrev i]

/-- C4: for every query, the documents returned by `FAISSVectorStore.search`
present the fetched chunks in exactly the rank order of the FAISS id list —
their id sequence is the found-in-store subsequence of `ids` — and the
result is unchanged under any reordering (permutation) of the rows the
database returned. -/
theorem C4_rank_preservation (scores : List ℚ) (ids : List Int)
    (rows rows' : List ChunkRow)
    (hnd : (rows.map (fun r => r.id)).Nodup) (hperm : rows'.Perm rows) :
    (searchDocuments scores ids rows).map (fun d => d.chunk_id) =
      ids.filter (fun i => ((dictLookup rows i).isSome)) ∧
    searchDocuments scores ids rows' = searchDocuments scores ids rows := by
  refine ⟨searchDocuments_map_chunk_id scores ids rows, ?_⟩
  unfold searchDocuments fetchChunksByIds
  rw [dictLookup_eq_of_perm hnd hperm]

/-- Closed check of `C4_rank_preservation` at a concrete input: two rows
returned in reversed order still yield the FAISS-ranked document list. -/
theorem C4_rank_preservation_witness :
    (searchDocuments [(1 : ℚ), (1/2 : ℚ)] [8, 7]
        [⟨7, "t7", 0, none, 1, none, none, none, none⟩,
         ⟨8, "t8", 1, none, 1, none, none, none, none⟩]).map (fun d => d.chunk_id) =
      [8, 7].filter (fun i => ((dictLookup
        [⟨7, "t7", 0, none, 1, none, none, none, none⟩,
         ⟨8, "t8", 1, none, 1, none, none, none, none⟩] i).isSome)) ∧
    searchDocuments [(1 : ℚ), (1/2 : ℚ)] [8, 7]
        [⟨8, "t8", 1, none, 1, none, none, none, none⟩,
         ⟨7, "t7", 0, none, 1, none, none, none, none⟩] =
      searchDocuments [(1 : ℚ), (1/2 : ℚ)] [8, 7]
        [⟨7, "t7", 0, none, 1, none, none, none, none⟩,
         ⟨8, "t8", 1, none, 1, none, none, none, none⟩] :=
  C4_rank_preservation [(1 : ℚ), (1/2 : ℚ)] [8, 7]
    [⟨7, "t7", 0, none, 1, none, none, none, none⟩,
     ⟨8, "t8", 1, none, 1, none, none, none, none⟩]
    [⟨8, "t8", 1, none, 1, none, none, none, none⟩,
     ⟨7, "t7", 0, none, 1, none, none, none, none⟩]
    (by decide) (by decide)

/-- C2, counterexample: the index search returned id `5`, the metadata store
has no row for it; the final document list of `search` is EMPTY — it does
not include an entry for id `5` with an empty chunk, while the id is
reported in the warning list of `_fetch_chunks_by_ids`.  This refutes the
claim that the returned list still includes an entry for the unmatched id
with `chunk = None` and its score. -/
theorem C2_counterexample :
    searchDocuments [(1 : ℚ)] [5] [] = [] ∧ (fetchChunksByIds [5] []).2 = [5] :=
  ⟨rfl, rfl⟩

/-- C2 as amended: an id returned by the index search but absent from the
metadata store is logged (it appears in the warning list) and retrieval does
not fail, but the returned list omits that id entirely: the document list
contains exactly the found chunks, in rank order. -/
theorem C2_missing_id_skipped (scores : List ℚ) (ids : List Int)
    (rows : List ChunkRow) (i : Int)
    (hi : i ∈ ids) (hnone : dictLookup rows i = none) :
    i ∈ (fetchChunksByIds ids rows).2 ∧
    (searchDocuments scores ids rows).map (fun d => d.chunk_id) =
      ids.filter (fun j => ((dictLookup rows j).isSome)) ∧
    i ∉ (searchDocuments scores ids rows).map (fun d => d.chunk_id) := by
  have h1 := searchDocuments_map_chunk_id scores ids rows
  refine ⟨?_, h1, ?_⟩
  · rw [fetchChunksByIds_eq]
    exact List.mem_filter.mpr ⟨hi, by simp [hnone]⟩
  · rw [h1]
    intro hmem
    have := (List.mem_filter.mp hmem).2
    simp [hnone] at this

/-- Closed check of `C2_missing_id_skipped` at the concrete input of the
spec's scenario (id `5`, empty store). -/
theorem C2_missing_id_skipped_witness :
    (5 : Int) ∈ (fetchChunksByIds [5] []).2 ∧
    (searchDocuments [(1 : ℚ)] [5] []).map (fun d => d.chunk_id) =
      [5].filter (fun j => ((dictLookup [] j).isSome)) ∧
    (5 : Int) ∉ (searchDocuments [(1 : ℚ)] [5] []).map (fun d => d.chunk_id) :=
  C2_missing_id_skipped [(1 : ℚ)] [5] [] 5 (by decide) (by decide)

/-- C10: when every id returned by the FAISS search has a row in the
metadata store and the score and id arrays have equal length (as
`index.search` returns them), the i-th document of `search` carries the
FAISS score of the i-th ranked hit — document by document, `(chunk_id,
similarity_score)` is exactly `ids` zipped with `scores`. -/
theorem C10_scores_follow_rank (scores : List ℚ) (ids : List Int)
    (rows : List ChunkRow)
    (hall : ∀ i ∈ ids, ((dictLookup rows i).isSome) = true)
    (hlen : scores.length = ids.length) :
    (searchDocuments scores ids rows).map
        (fun d => (d.chunk_id, d.similarity_score)) = ids.zip scores := by
  have hchunks : ((fetchChunksByIds ids rows).1).map (fun c => c.id) = ids := by
    rw [fetchChunksByIds_eq]
    dsimp only
    rw [filterMap_dictLookup_map_id]
    exact List.filter_eq_self.mpr hall
  have hclen : (fetchChunksByIds ids rows).1.length = ids.length := by
    have h := congrArg List.length hchunks
    simpa using h
  apply List.ext_getElem
  · simp [searchDocuments, hclen, hlen]
  · intro j h1 h2
    have hj : j < ids.length := by
      simp only [List.length_map, searchDocuments, List.enum_length, hclen] at h1
      exact h1
    have hjc : j < (fetchChunksByIds ids rows).1.length := by
      rw [hclen]; exact hj
    have hjs : j < scores.length := by rw [hlen]; exact hj
    simp only [searchDocuments, List.getElem_map, List.getElem_enum,
      List.getElem_zip, mkDocument]
    refine Prod.ext ?_ ?_
    · show (fetchChunksByIds ids rows).1[j].id = ids[j]
      have hg := List.getElem_of_eq hchunks.symm hj
      rw [List.getElem_map] at hg
      exact hg.symm
    · show scores.getD j 0 = scores[j]
      exact List.getD_eq_getElem scores 0 hjs

/-- Closed check of `C10_scores_follow_rank` at a concrete input. -/
theorem C10_scores_follow_rank_witness :
    (searchDocuments [(1 : ℚ), (1/2 : ℚ)] [8, 7]
        [⟨7, "u7", 0, none, 1, none, none, none, none⟩,
         ⟨8, "u8", 1, none, 1, none, none, none, none⟩]).map
        (fun d => (d.chunk_id, d.similarity_score)) =
      [8, 7].zip [(1 : ℚ), (1/2 : ℚ)] :=
  C10_scores_follow_rank [(1 : ℚ), (1/2 : ℚ)] [8, 7]
    [⟨7, "u7", 0, none, 1, none, none, none, none⟩,
     ⟨8, "u8", 1, none, 1, none, none, none, none⟩]
    (by decide) (by decide)

/-- C1 is a code bug: for every query, the body
`FAISSVectorStore._get_query_embedding` posts to `POST /embed` has no
`texts` key (it sends a `requests` envelope instead), so the server's
required-field validation of `EmbedRequest` rejects it — the client request
never conforms to the `{ "texts": [string], "is_query": bool }` contract. -/
theorem C1_client_payload_rejected_by_schema (query : String) :
    parseEmbedRequest (clientEmbedPayload query) =
      .error "field required: texts" := rfl

/-- C7, counterexample: the service reply carries the vector `[3, 4]`, whose
L2 norm is `5` (squared norm `25`) — a gross deviation from `1` — yet
`_get_query_embedding` succeeds on it: no norm verification ever fails the
call. -/
theorem C7_counterexample :
    l2normSq [3, 4] = 25 ∧
    (getQueryEmbedding (some [[3, 4]])).isOk = true :=
  ⟨by norm_num [l2normSq], rfl⟩

/-- C7 as amended: the client never verifies the received vector's norm; on
any reply whose `responses` array is nonempty it succeeds and returns the
first vector after applying `faiss.normalize_L2` to it itself, whatever the
received norm was. -/
theorem C7_client_normalizes_without_check
    (responses : Option (List (List ℚ))) (v : List ℚ) (rest : List (List ℚ))
    (h : responses = some (v :: rest)) :
    getQueryEmbedding responses = .ok (normalizeL2 v) := by
  rw [h]; rfl

/-- Closed check of `C7_client_normalizes_without_check` on the norm-5
vector of the counterexample input. -/
theorem C7_client_normalizes_without_check_witness :
    getQueryEmbedding (some [[3, 4]]) = .ok (normalizeL2 [3, 4]) :=
  C7_client_normalizes_without_check (some [[3, 4]]) [3, 4] [] rfl

/-! ### Lemmas about the reconciliation job -/


/-- Total characterization of the validation loop: it succeeds exactly when
every selected row's decoded vector has length `d`, in which case the local
`vectors`/`ids` lists are the two projections, in row order, of the rows
whose id is missing; any bad selected row makes it raise the
dimension-mismatch error. -/
theorem selectBatch_eq (missing : Finset Int) (d : ℕ) :
    ∀ results : List (Int × List ℚ),
    selectBatch missing d results =
      if ∀ r ∈ results, r.1 ∈ missing → r.2.length = d
      then .ok ((results.filter (fun r => decide (r.1 ∈ missing))).map (fun r => r.2),
                (results.filter (fun r => decide (r.1 ∈ missing))).map (fun r => r.1))
      else .error "Embedding dim mismatch"
  | [] => by simp [selectBatch]
  | (cid, emb) :: rest => by
    have ih := selectBatch_eq missing d rest
    simp only [selectBatch]
    by_cases hm : cid ∈ missing
    · rw [if_pos hm]
      by_cases hd : emb.length = d
      · rw [if_neg (not_ne_iff.mpr hd), ih]
        by_cases hall : ∀ r ∈ rest, r.1 ∈ missing → r.2.length = d
        · rw [if_pos hall,
              if_pos (show ∀ r ∈ (cid, emb) :: rest, r.1 ∈ missing → r.2.length = d by
                rw [List.forall_mem_cons]; exact ⟨fun _ => hd, hall⟩)]
          exact congrArg Except.ok (by simp [List.filter_cons, hm])
        · rw [if_neg hall,
              if_neg (show ¬∀ r ∈ (cid, emb) :: rest, r.1 ∈ missing → r.2.length = d by
                rw [List.forall_mem_cons]; rintro ⟨_, h2⟩; exact hall h2)]
          rfl
      · rw [if_pos hd,
            if_neg (show ¬∀ r ∈ (cid, emb) :: rest, r.1 ∈ missing → r.2.length = d by
              rw [List.forall_mem_cons]; rintro ⟨h1, _⟩; exact hd (h1 hm))]
    · rw [if_neg hm, ih]
      by_cases hall : ∀ r ∈ rest, r.1 ∈ missing → r.2.length = d
      · rw [if_pos hall,
            if_pos (show ∀ r ∈ (cid, emb) :: rest, r.1 ∈ missing → r.2.length = d by
              rw [List.forall_mem_cons]; exact ⟨fun h => absurd h hm, hall⟩)]
        simp [List.filter_cons, hm]
      · rw [if_neg hall,
            if_neg (show ¬∀ r ∈ (cid, emb) :: rest, r.1 ∈ missing → r.2.length = d by
              rw [List.forall_mem_cons]; rintro ⟨_, h2⟩; exact hall h2)]

/-- A successful insert run determines everything: the inserted ids are the
selected rows' ids, the new index is the old one with the batch appended,
and the only filesystem operation is the single in-place write of the new
artifact to the very path the index was loaded from. -/
theorem insertMissing_ok {missing : Finset Int} {results : List (Int × List ℚ)}
    {path : String} {ix ix' : FaissIndex} {inserted : List Int} {ops : List FsOp}
    (h : insertMissingIdsToFaissDb missing results path ix = .ok (ix', inserted, ops)) :
    inserted = (results.filter (fun r => decide (r.1 ∈ missing))).map (fun r => r.1) ∧
    ix' = ix.addWithIds
        ((results.filter (fun r => decide (r.1 ∈ missing))).map (fun r => r.2))
        inserted ∧
    ops = [FsOp.write path ix'] := by
  unfold insertMissingIdsToFaissDb at h
  rw [selectBatch_eq] at h
  by_cases hall : ∀ r ∈ results, r.1 ∈ missing → r.2.length = ix.d
  · rw [if_pos hall] at h
    have h3 := Except.ok.inj h
    simp only [Prod.mk.injEq] at h3
    obtain ⟨e1, e2, e3⟩ := h3
    refine ⟨e2.symm, ?_, ?_⟩
    · rw [← e1, ← e2]
    · rw [← e3, ← e1]
  · rw [if_neg hall] at h
    exact Except.noConfusion h

/-- A failed validation aborts the whole insert: nothing is added and no
filesystem operation happens (the exception propagates before
`add_with_ids` and `write_index` are reached). -/
theorem insertMissing_error {missing : Finset Int} {results : List (Int × List ℚ)}
    {path : String} {ix : FaissIndex} {r : Int × List ℚ}
    (hr : r ∈ results) (hm : r.1 ∈ missing) (hd : r.2.length ≠ ix.d) :
    insertMissingIdsToFaissDb missing results path ix =
      .error "Embedding dim mismatch" := by
  unfold insertMissingIdsToFaissDb
  rw [selectBatch_eq]
  rw [if_neg (show ¬∀ s ∈ results, s.1 ∈ missing → s.2.length = ix.d from
    fun hc => hd (hc r hr hm))]
  rfl

/-- Case analysis of a successful `main` run: either nothing was missing and
the state is untouched with no filesystem activity, or the missing set was
nonempty and the insert step succeeded on the fetched vector rows. -/
theorem reconcileMain_ok {db : DbState} {path : String} {ix ix' : FaissIndex}
    {inserted : List Int} {ops : List FsOp}
    (h : reconcileMain db path ix = .ok (ix', inserted, ops)) :
    (detectMissingFaissIds ix db.chunkIds = ∅ ∧ ix' = ix ∧
      inserted = [] ∧ ops = []) ∨
    (detectMissingFaissIds ix db.chunkIds ≠ ∅ ∧
      insertMissingIdsToFaissDb (detectMissingFaissIds ix db.chunkIds)
        (getVectorsForIds (detectMissingFaissIds ix db.chunkIds) db) path ix =
        .ok (ix', inserted, ops)) := by
  simp only [reconcileMain] at h
  by_cases hm : detectMissingFaissIds ix db.chunkIds = ∅
  · rw [if_pos hm] at h
    have h3 := Except.ok.inj h
    simp only [Prod.mk.injEq] at h3
    exact Or.inl ⟨hm, h3.1.symm, h3.2.1.symm, h3.2.2.symm⟩
  · rw [if_neg hm] at h
    by_cases he :
        (getVectorsForIds (detectMissingFaissIds ix db.chunkIds) db).isEmpty = true
    · rw [if_pos he] at h
      exact Except.noConfusion h
    · rw [if_neg he] at h
      exact Or.inr ⟨hm, h⟩

/-- Appending a batch whose id and vector lists have equal length extends
the id map by exactly those ids, in order. -/
theorem addWithIds_idList (ix : FaissIndex) (vs : List (List ℚ)) (ids : List Int)
    (hlen : ids.length ≤ vs.length) :
    (ix.addWithIds vs ids).idList = ix.idList ++ ids := by
  unfold FaissIndex.addWithIds FaissIndex.idList
  simp only [List.map_append]
  rw [show (fun p : Int × List ℚ => p.1) = Prod.fst from rfl,
    List.map_fst_zip ids vs hlen]

/-- After any successful `main` run the id map is the old one with the
inserted ids appended, and every inserted id was a missing one: in the
metadata store but not in the index's id map at insertion time. -/
theorem reconcile_ok_idList {db : DbState} {path : String} {ix ix' : FaissIndex}
    {inserted : List Int} {ops : List FsOp}
    (h : reconcileMain db path ix = .ok (ix', inserted, ops)) :
    ix'.idList = ix.idList ++ inserted ∧
    ∀ id ∈ inserted, id ∈ db.chunkIds ∧ id ∉ ix.idList := by
  rcases reconcileMain_ok h with ⟨_, hix, hins, _⟩ | ⟨_, hins⟩
  · subst hix; subst hins; simp
  · obtain ⟨e1, e2, _⟩ := insertMissing_ok hins
    constructor
    · rw [e2, addWithIds_idList]
      rw [e1]
      simp
    · intro id hid
      rw [e1] at hid
      obtain ⟨r, hr, hrid⟩ := List.mem_map.mp hid
      have hmem := List.mem_filter.mp hr
      have hmiss : r.1 ∈ detectMissingFaissIds ix db.chunkIds := by
        have hq := List.mem_filter.mp hmem.1
        exact of_decide_eq_true hq.2
      rw [← hrid]
      have hsd := Finset.mem_sdiff.mp hmiss
      exact ⟨hsd.1, fun hc => hsd.2 (List.mem_toFinset.mpr hc)⟩

/-- Per-id backfill guarantee of a successful `main` run: a metadata-store
id that has a row in `embedding_vectors` ends up in the index's id map.
Ids without a vector row get no such guarantee — `get_vectors_for_ids`
silently returns only the rows that exist, and the insert loop never
notices the ones that did not come back. -/
theorem reconcile_ok_covered {db : DbState} {path : String} {ix ix' : FaissIndex}
    {inserted : List Int} {ops : List FsOp}
    (h : reconcileMain db path ix = .ok (ix', inserted, ops)) :
    ∀ id ∈ db.chunkIds, id ∈ db.vectorRows.map (fun r => r.1) → id ∈ ix'.idList := by
  intro id hid hrow
  have hix' := (reconcile_ok_idList h).1
  rcases reconcileMain_ok h with ⟨hm, hixeq, _, _⟩ | ⟨hm, hins⟩
  · rw [hixeq]
    by_contra hnot
    have hmiss : id ∈ detectMissingFaissIds ix db.chunkIds :=
      Finset.mem_sdiff.mpr ⟨hid, fun hc => hnot (List.mem_toFinset.mp hc)⟩
    rw [hm] at hmiss
    exact absurd hmiss (Finset.not_mem_empty id)
  · by_cases hin : id ∈ ix.idList
    · rw [hix']
      exact List.mem_append_left _ hin
    · obtain ⟨e1, _, _⟩ := insertMissing_ok hins
      have hmiss : id ∈ detectMissingFaissIds ix db.chunkIds :=
        Finset.mem_sdiff.mpr ⟨hid, fun hc => hin (List.mem_toFinset.mp hc)⟩
      obtain ⟨r, hr, hrid⟩ := List.mem_map.mp hrow
      have hrres : r ∈ getVectorsForIds (detectMissingFaissIds ix db.chunkIds) db :=
        List.mem_filter.mpr ⟨hr, decide_eq_true (by rw [hrid]; exact hmiss)⟩
      have hins' : id ∈ inserted := by
        rw [e1]
        exact List.mem_map.mpr
          ⟨r, List.mem_filter.mpr ⟨hrres, decide_eq_true (by rw [hrid]; exact hmiss)⟩, hrid⟩
      rw [hix']
      exact List.mem_append_right _ hins'

/-- C5, counterexample: store ids `{1, 4, 5}` with a vector row only for
`4`, index ids `[1]`.  The run SUCCEEDS — it inserts only `4` and exits with
`.ok` — yet store id `5` is still absent from the final id map: a
successful run does not make `store_ids` a subset of the index ids when a
chunk has no `embedding_vectors` row, refuting the unconditional superset
claim. -/
theorem C5_counterexample :
    reconcileMain (DbState.mk {1, 4, 5} [(4, [5, 6, 7])]) "paper.faiss"
        (FaissIndex.mk 3 [(1, [1, 0, 0])]) =
      .ok (FaissIndex.mk 3 [(1, [1, 0, 0]), (4, [5, 6, 7])], [4],
        [FsOp.write "paper.faiss"
          (FaissIndex.mk 3 [(1, [1, 0, 0]), (4, [5, 6, 7])])]) ∧
    (5 : Int) ∈ (DbState.mk {1, 4, 5} [(4, [5, 6, 7])]).chunkIds ∧
    (5 : Int) ∉ (FaissIndex.mk 3 [(1, [1, 0, 0]), (4, [5, 6, 7])]).idList :=
  ⟨rfl, by decide, by decide⟩

/-- C5 as amended: after a successful reconciliation run, every
metadata-store id THAT HAS a row in `embedding_vectors` is present in the
FAISS id map (ids without a vector row may remain missing even though the
run exits successfully), while the previous index ids are all kept in place
— the id map is only ever appended to, so index ids absent from the store
are left untouched and the index may remain a superset. -/
theorem C5_covered_ids_in_index (db : DbState) (path : String)
    (ix ix' : FaissIndex) (inserted : List Int) (ops : List FsOp)
    (h : reconcileMain db path ix = .ok (ix', inserted, ops)) :
    (∀ id ∈ db.chunkIds,
      id ∈ db.vectorRows.map (fun r => r.1) → id ∈ ix'.idList) ∧
    ix'.idList = ix.idList ++ inserted :=
  ⟨reconcile_ok_covered h, (reconcile_ok_idList h).1⟩

/-- Closed check of `C5_covered_ids_in_index` on the partial-coverage state
of the counterexample: the covered ids `1` and `4` are in the final id map,
and the id map is the old one with `[4]` appended. -/
theorem C5_covered_ids_in_index_witness :
    (∀ id ∈ (DbState.mk {1, 4, 5} [(4, [5, 6, 7])]).chunkIds,
      id ∈ (DbState.mk {1, 4, 5} [(4, [5, 6, 7])]).vectorRows.map (fun r => r.1) →
      id ∈ (FaissIndex.mk 3 [(1, [1, 0, 0]), (4, [5, 6, 7])]).idList) ∧
    (FaissIndex.mk 3 [(1, [1, 0, 0]), (4, [5, 6, 7])]).idList =
      (FaissIndex.mk 3 [(1, [1, 0, 0])]).idList ++ [4] :=
  C5_covered_ids_in_index (DbState.mk {1, 4, 5} [(4, [5, 6, 7])])
    "paper.faiss"
    (FaissIndex.mk 3 [(1, [1, 0, 0])])
    (FaissIndex.mk 3 [(1, [1, 0, 0]), (4, [5, 6, 7])])
    [4]
    [FsOp.write "paper.faiss" (FaissIndex.mk 3 [(1, [1, 0, 0]), (4, [5, 6, 7])])]
    (by rfl)

/-- C3, counterexample: a concrete successful persist step of the
reconciliation job.  Its entire filesystem activity is one `write` directly
to `"paper.faiss"` — the very path the index was loaded from: the artifact
is overwritten in place, no fresh artifact path is written and no rename
ever occurs.  This refutes the claim that persist writes to a new path and
atomically replaces the previous artifact by rename. -/
theorem C3_counterexample :
    insertMissingIdsToFaissDb {4} [(4, [5, 6, 7])] "paper.faiss"
        (FaissIndex.mk 3 [(1, [1, 0, 0])]) =
      .ok (FaissIndex.mk 3 [(1, [1, 0, 0]), (4, [5, 6, 7])], [4],
        [FsOp.write "paper.faiss"
          (FaissIndex.mk 3 [(1, [1, 0, 0]), (4, [5, 6, 7])])]) := rfl

/-- C3 as amended: every successful run of
`insert_missing_ids_to_faiss_db` performs exactly one filesystem operation,
a `faiss.write_index` of the updated index straight to the original artifact
path it was loaded from — an in-place overwrite with no temporary path and
no rename. -/
theorem C3_persist_writes_in_place (missing : Finset Int)
    (results : List (Int × List ℚ)) (path : String) (ix ix' : FaissIndex)
    (inserted : List Int) (ops : List FsOp)
    (h : insertMissingIdsToFaissDb missing results path ix =
      .ok (ix', inserted, ops)) :
    ops = [FsOp.write path ix'] :=
  (insertMissing_ok h).2.2

/-- Closed check of `C3_persist_writes_in_place` at a concrete input. -/
theorem C3_persist_writes_in_place_witness :
    [FsOp.write "paper.faiss" (FaissIndex.mk 3 [(1, [1, 0, 0]), (4, [5, 6, 7])])] =
      [FsOp.write "paper.faiss"
        (FaissIndex.mk 3 [(1, [1, 0, 0]), (4, [5, 6, 7])])] :=
  C3_persist_writes_in_place {4} [(4, [5, 6, 7])] "paper.faiss"
    (FaissIndex.mk 3 [(1, [1, 0, 0])])
    (FaissIndex.mk 3 [(1, [1, 0, 0]), (4, [5, 6, 7])])
    [4]
    [FsOp.write "paper.faiss" (FaissIndex.mk 3 [(1, [1, 0, 0]), (4, [5, 6, 7])])]
    (by rfl)

/-- C6: if any fetched row selected for backfilling has decoded length ≠ the
index dimension, the insert step raises the dimension-mismatch error; since
the exception propagates before `add_with_ids` and `write_index` are
reached, no vector of the batch is added and the artifact is not rewritten
(the run produces no new index and no filesystem operation). -/
theorem C6_dimension_mismatch_aborts (missing : Finset Int)
    (results : List (Int × List ℚ)) (path : String) (ix : FaissIndex)
    (r : Int × List ℚ) (hr : r ∈ results) (hm : r.1 ∈ missing)
    (hd : r.2.length ≠ ix.d) :
    insertMissingIdsToFaissDb missing results path ix =
      .error "Embedding dim mismatch" :=
  insertMissing_error hr hm hd

/-- Closed check of `C6_dimension_mismatch_aborts`: a 2-dimensional vector
against a 3-dimensional index aborts the insert. -/
theorem C6_dimension_mismatch_aborts_witness :
    insertMissingIdsToFaissDb {1} [(1, [1, 2])] "paper.faiss"
        (FaissIndex.mk 3 []) =
      .error "Embedding dim mismatch" :=
  C6_dimension_mismatch_aborts {1} [(1, [1, 2])] "paper.faiss"
    (FaissIndex.mk 3 []) (1, [1, 2]) (by decide) (by decide) (by decide)

/-- C8, counterexample: the same partial-coverage state as the C5
counterexample.  The first run succeeds (inserting only the covered id
`4`); the immediate second run, with no intervening store changes, computes
the NONEMPTY missing set `{5}`, ENTERS the `if missing_ids:` branch, and
crashes with `IndexError` at `print(results[0][0], ...)` because
`get_vectors_for_ids` returns no rows — refuting the claim that the second
run always finds an empty missing set and skips the insert/persist
branch. -/
theorem C8_counterexample :
    reconcileMain (DbState.mk {1, 4, 5} [(4, [5, 6, 7])]) "paper.faiss"
        (FaissIndex.mk 3 [(1, [1, 0, 0])]) =
      .ok (FaissIndex.mk 3 [(1, [1, 0, 0]), (4, [5, 6, 7])], [4],
        [FsOp.write "paper.faiss"
          (FaissIndex.mk 3 [(1, [1, 0, 0]), (4, [5, 6, 7])])]) ∧
    reconcileMain (DbState.mk {1, 4, 5} [(4, [5, 6, 7])]) "paper.faiss"
        (FaissIndex.mk 3 [(1, [1, 0, 0]), (4, [5, 6, 7])]) =
      .error "IndexError: list index out of range" :=
  ⟨rfl, rfl⟩

/-- C8 as amended: provided every store id missing from the index had a row
in `embedding_vectors` on the first run, re-running the reconciliation job
immediately after a successful run, with no intervening store changes,
computes an empty missing set, skips the insert/persist branch entirely and
returns the index unchanged: zero insertions, no filesystem operation, and
the identical id map (hence identical id-set size).  Without that coverage
the second run re-enters the insert branch and fails (see the
counterexample). -/
theorem C8_reconcile_idempotent_under_coverage (db : DbState) (path : String)
    (ix ix1 : FaissIndex) (ins1 : List Int) (ops1 : List FsOp)
    (hcov : ∀ id ∈ db.chunkIds,
      id ∉ ix.idList → id ∈ db.vectorRows.map (fun r => r.1))
    (h1 : reconcileMain db path ix = .ok (ix1, ins1, ops1)) :
    reconcileMain db path ix1 = .ok (ix1, [], []) := by
  have hcovered := reconcile_ok_covered h1
  have happend := (reconcile_ok_idList h1).1
  have hm : detectMissingFaissIds ix1 db.chunkIds = ∅ := by
    unfold detectMissingFaissIds
    rw [Finset.sdiff_eq_empty_iff_subset]
    intro id hid
    apply List.mem_toFinset.mpr
    by_cases hin : id ∈ ix.idList
    · rw [happend]
      exact List.mem_append_left _ hin
    · exact hcovered id hid (hcov id hid hin)
  simp only [reconcileMain]
  rw [if_pos hm]

/-- Closed check of `C8_reconcile_idempotent_under_coverage`: on the spec's
§8 scenario, where the one missing id `4` has its vector row, the second
run inserts nothing and leaves the index identical. -/
theorem C8_reconcile_idempotent_under_coverage_witness :
    reconcileMain (DbState.mk {1, 4} [(1, [1, 0, 0]), (4, [5, 6, 7])])
        "paper.faiss" (FaissIndex.mk 3 [(1, [1, 0, 0]), (4, [5, 6, 7])]) =
      .ok (FaissIndex.mk 3 [(1, [1, 0, 0]), (4, [5, 6, 7])], [], []) :=
  C8_reconcile_idempotent_under_coverage
    (DbState.mk {1, 4} [(1, [1, 0, 0]), (4, [5, 6, 7])])
    "paper.faiss" (FaissIndex.mk 3 [(1, [1, 0, 0])])
    (FaissIndex.mk 3 [(1, [1, 0, 0]), (4, [5, 6, 7])])
    [4]
    [FsOp.write "paper.faiss" (FaissIndex.mk 3 [(1, [1, 0, 0]), (4, [5, 6, 7])])]
    (by decide) (by rfl)

/-- C9: every id a successful reconciliation run passes to `add_with_ids`
lies in `missing_ids = db_ids - faiss_ids`, hence was absent from the index
id map at insertion time; with pairwise-distinct vector-table keys, the
batch itself is duplicate-free, so a duplicate-free id map stays
duplicate-free: the job never inserts under an already-present id. -/
theorem C9_inserted_ids_fresh (db : DbState) (path : String)
    (ix ix' : FaissIndex) (inserted : List Int) (ops : List FsOp)
    (hnd : (db.vectorRows.map (fun r => r.1)).Nodup)
    (hixnd : ix.idList.Nodup)
    (h : reconcileMain db path ix = .ok (ix', inserted, ops)) :
    (∀ id ∈ inserted,
      id ∈ detectMissingFaissIds ix db.chunkIds ∧ id ∉ ix.idList) ∧
    ix'.idList.Nodup := by
  obtain ⟨hlist, hfresh⟩ := reconcile_ok_idList h
  have hfresh' : ∀ id ∈ inserted,
      id ∈ detectMissingFaissIds ix db.chunkIds ∧ id ∉ ix.idList := by
    intro id hid
    obtain ⟨h1, h2⟩ := hfresh id hid
    exact ⟨Finset.mem_sdiff.mpr ⟨h1, fun hc => h2 (List.mem_toFinset.mp hc)⟩, h2⟩
  refine ⟨hfresh', ?_⟩
  have hinsnd : inserted.Nodup := by
    rcases reconcileMain_ok h with ⟨_, _, hins, _⟩ | ⟨_, hins⟩
    · rw [hins]; exact List.nodup_nil
    · obtain ⟨e1, _, _⟩ := insertMissing_ok hins
      rw [e1]
      unfold getVectorsForIds
      refine List.Nodup.sublist ?_ hnd
      exact List.Sublist.map _ ((List.filter_sublist _).trans (List.filter_sublist _))
  rw [hlist]
  refine List.Nodup.append hixnd hinsnd ?_
  intro a ha hb
  exact (hfresh' a hb).2 ha

/-- Closed check of `C9_inserted_ids_fresh` at the §8 scenario input. -/
theorem C9_inserted_ids_fresh_witness :
    (∀ id ∈ ([4] : List Int),
      id ∈ detectMissingFaissIds (FaissIndex.mk 3 [(1, [1, 0, 0])])
            (DbState.mk {1, 4} [(1, [1, 0, 0]), (4, [5, 6, 7])]).chunkIds ∧
      id ∉ (FaissIndex.mk 3 [(1, [1, 0, 0])]).idList) ∧
    (FaissIndex.mk 3 [(1, [1, 0, 0]), (4, [5, 6, 7])]).idList.Nodup :=
  C9_inserted_ids_fresh (DbState.mk {1, 4} [(1, [1, 0, 0]), (4, [5, 6, 7])])
    "paper.faiss" (FaissIndex.mk 3 [(1, [1, 0, 0])])
    (FaissIndex.mk 3 [(1, [1, 0, 0]), (4, [5, 6, 7])])
    [4]
    [FsOp.write "paper.faiss" (FaissIndex.mk 3 [(1, [1, 0, 0]), (4, [5, 6, 7])])]
    (by decide) (by decide) (by rfl)
